import Mathlib

/-!
Shallow embedding of the indicator engine and display pipeline of
`src/main.py` (a Streamlit stock-visualization app built on pandas).

Modelling conventions:
* A pandas float Series is a `List` of values.  A value that pandas would
  hold as NaN (missing / undefined) is `Option.none` when the series can
  only contain finite floats and NaN, and `PVal.nan` when the series can
  also contain infinities (the RS / RSI pipeline divides by zero).
* Machine floats are modelled as exact rationals `ℚ` together with the
  IEEE sentinels NaN, +inf, -inf, following numpy semantics for the
  operations actually used (x/0 with x>0 gives +inf, 0/0 gives NaN,
  finite/inf gives 0, 100 - inf gives -inf, NaN propagates).
* Fallible code (`rsi.iloc[-1]`, which raises IndexError on an empty
  series, and python string formatting, which raises ValueError when a
  `.2f` format is applied to a str) is embedded with `Except String`.
-/

/-- Float-like value: an exact rational or one of the IEEE sentinels
NaN, +infinity, -infinity.  Used for series produced by division. -/
inductive PVal where
  | nan : PVal
  | pinf : PVal
  | ninf : PVal
  | val : ℚ → PVal
deriving DecidableEq, Repr

/-- Negation on float-like values (numpy semantics; -NaN is NaN). -/
def pvNeg : PVal → PVal
  | .nan => .nan
  | .pinf => .ninf
  | .ninf => .pinf
  | .val a => .val (-a)

/-- Addition on float-like values (numpy semantics: NaN propagates,
inf + (-inf) = NaN, inf absorbs finite values). -/
def pvAdd : PVal → PVal → PVal
  | .nan, _ => .nan
  | _, .nan => .nan
  | .pinf, .ninf => .nan
  | .ninf, .pinf => .nan
  | .pinf, _ => .pinf
  | _, .pinf => .pinf
  | .ninf, _ => .ninf
  | _, .ninf => .ninf
  | .val a, .val b => .val (a + b)

/-- Subtraction on float-like values, as addition of the negation. -/
def pvSub (a b : PVal) : PVal := pvAdd a (pvNeg b)

/-- Division on float-like values (numpy semantics: NaN propagates,
inf/inf = NaN, finite/inf = 0, inf/finite keeps the sign, and division
of a finite value by zero yields a signed infinity, or NaN for 0/0;
signed zeros are collapsed to 0, which agrees with every use below). -/
def pvDiv : PVal → PVal → PVal
  | .nan, _ => .nan
  | _, .nan => .nan
  | .pinf, .pinf => .nan
  | .pinf, .ninf => .nan
  | .ninf, .pinf => .nan
  | .ninf, .ninf => .nan
  | .pinf, .val b => if b < 0 then .ninf else .pinf
  | .ninf, .val b => if b < 0 then .pinf else .ninf
  | .val _, .pinf => .val 0
  | .val _, .ninf => .val 0
  | .val a, .val b =>
      if b = 0 then (if a = 0 then .nan else if 0 < a then .pinf else .ninf)
      else .val (a / b)

/-- Division of two series entries that are finite-or-NaN, producing a
float-like value (this is where +inf and NaN first appear in the RSI
pipeline). -/
def pvDivOpt : Option ℚ → Option ℚ → PVal
  | none, _ => .nan
  | _, none => .nan
  | some a, some b => pvDiv (.val a) (.val b)

/-- Embeds `Series.diff()`: entry 0 is NaN, entry i (i ≥ 1) is
x[i] - x[i-1]. -/
def diffList (xs : List ℚ) : List (Option ℚ) :=
  match xs with
  | [] => []
  | x :: rest => none :: List.zipWith (fun a b => some (b - a)) (x :: rest) rest

/-- Embeds `delta.where(delta > 0, 0)`: keep an entry where it is
positive, replace it by 0 elsewhere.  NaN compares false under `>`,
so the NaN entry produced by `diff` is replaced by 0 as well; the
result therefore contains no NaN. -/
def whereGtZero (ds : List (Option ℚ)) : List ℚ :=
  ds.map fun d =>
    match d with
    | none => 0
    | some x => if 0 < x then x else 0

/-- Embeds `delta.where(delta < 0, 0)`: keep an entry where it is
negative, replace it by 0 elsewhere (NaN compares false, so it is
replaced by 0). -/
def whereLtZero (ds : List (Option ℚ)) : List ℚ :=
  ds.map fun d =>
    match d with
    | none => 0
    | some x => if x < 0 then x else 0

/-- Embeds `Series.rolling(window=w).mean()` with the default
`min_periods = w`: entry i is the mean of the trailing w entries when
at least w entries exist (i + 1 ≥ w, with w ≥ 1), and NaN otherwise. -/
def rollingMean (w : ℕ) (xs : List ℚ) : List (Option ℚ) :=
  (List.range xs.length).map fun i =>
    if 1 ≤ w ∧ w ≤ i + 1 then
      some (((xs.drop (i + 1 - w)).take w).sum / (w : ℚ))
    else none

/-- Embeds the recursion of `Series.ewm(span=w, adjust=False).mean()`
after the first entry: given the previous smoothed value `p`, each new
close c produces α·c + (1-α)·p. -/
def emaGo (a p : ℚ) : List ℚ → List ℚ
  | [] => []
  | c :: cs => (a * c + (1 - a) * p) :: emaGo a (a * c + (1 - a) * p) cs

/-- Embeds `calculate_sma` of src/main.py:
`data['Close'].rolling(window=window).mean()`. -/
def calculate_sma (closes : List ℚ) (window : ℕ) : List (Option ℚ) :=
  rollingMean window closes

/-- Embeds `calculate_ema` of src/main.py:
`data['Close'].ewm(span=window, adjust=False).mean()`, i.e.
E[0] = close[0] and E[i] = α·close[i] + (1-α)·E[i-1] with
α = 2/(window+1).  The input contains no NaN, so neither does the
output; hence the entries are plain rationals. -/
def calculate_ema (closes : List ℚ) (window : ℕ) : List ℚ :=
  match closes with
  | [] => []
  | c :: cs => c :: emaGo (2 / ((window : ℚ) + 1)) c cs

/-- Embeds `delta = data['Close'].diff()` in `calculate_rsi`. -/
def rsiDelta (closes : List ℚ) : List (Option ℚ) :=
  diffList closes

/-- Embeds `gain = delta.where(delta > 0, 0)` in `calculate_rsi`. -/
def rsiGain (closes : List ℚ) : List ℚ :=
  whereGtZero (rsiDelta closes)

/-- Embeds `loss = -delta.where(delta < 0, 0)` in `calculate_rsi`. -/
def rsiLoss (closes : List ℚ) : List ℚ :=
  (whereLtZero (rsiDelta closes)).map Neg.neg

/-- Embeds `avg_gain = gain.rolling(window=window).mean()`. -/
def rsiAvgGain (closes : List ℚ) (window : ℕ) : List (Option ℚ) :=
  rollingMean window (rsiGain closes)

/-- Embeds `avg_loss = loss.rolling(window=window).mean()`. -/
def rsiAvgLoss (closes : List ℚ) (window : ℕ) : List (Option ℚ) :=
  rollingMean window (rsiLoss closes)

/-- Embeds `rs = avg_gain / avg_loss` (elementwise float division:
NaN when either side is NaN or for 0/0, +inf for positive/0). -/
def rsSeries (closes : List ℚ) (window : ℕ) : List PVal :=
  List.zipWith pvDivOpt (rsiAvgGain closes window) (rsiAvgLoss closes window)

/-- Per-entry body of `rsi = 100 - (100 / (1 + rs))` in float
arithmetic. -/
def rsiOfRs (r : PVal) : PVal :=
  pvSub (.val 100) (pvDiv (.val 100) (pvAdd (.val 1) r))

/-- Embeds `rsi = 100 - (100 / (1 + rs))` (elementwise float
arithmetic). -/
def rsiSeries (closes : List ℚ) (window : ℕ) : List PVal :=
  (rsSeries closes window).map rsiOfRs

/-- Embeds `calculate_rsi` of src/main.py, returning the RSI series and
`rsi.iloc[-1]`.  On an empty series `iloc[-1]` raises IndexError, which
is embedded as `Except.error`. -/
def calculate_rsi (closes : List ℚ) (window : ℕ) :
    Except String (List PVal × PVal) :=
  match (rsiSeries closes window).getLast? with
  | some v => .ok (rsiSeries closes window, v)
  | none => .error "IndexError: single positional indexer is out-of-bounds"

/-- Counts the leading NaN (undefined) entries of a finite-or-NaN
series. -/
def leadingNones : List (Option ℚ) → ℕ
  | [] => 0
  | none :: xs => leadingNones xs + 1
  | some _ :: _ => 0

/-- Counts the leading NaN (undefined) entries of a float-like series. -/
def leadingNans : List PVal → ℕ
  | [] => 0
  | .nan :: xs => leadingNans xs + 1
  | .pinf :: _ => 0
  | .ninf :: _ => 0
  | .val _ :: _ => 0

/-- Value of a metadata field in the loosely-typed `info` mapping
returned by the provider: a number or an arbitrary string. -/
inductive MetaVal where
  | num : ℚ → MetaVal
  | str : String → MetaVal
deriving DecidableEq, Repr

/-- Embeds python `info.get(key, default)` over the metadata mapping. -/
def infoGet (info : List (String × MetaVal)) (key : String) (dflt : MetaVal) :
    MetaVal :=
  match info.find? (fun kv => kv.1 = key) with
  | some kv => kv.2
  | none => dflt

/-- Renders a rational with two decimal places, as python `.2f`
formatting does for a finite float (ties rounded up; the exact tie rule
is irrelevant to every claim below). -/
def fmt2 (q : ℚ) : String :=
  let s : String := if q < 0 then "-" else ""
  let c : ℤ := ⌊|q| * 100 + 1 / 2⌋
  let whole := c / 100
  let frac := c % 100
  s ++ toString whole ++ "." ++ (if frac < 10 then "0" else "") ++ toString frac

/-- Renders a float-like value with two decimal places; python formats
the sentinels as the strings nan and inf without raising. -/
def fmt2P : PVal → String
  | .nan => "nan"
  | .pinf => "inf"
  | .ninf => "-inf"
  | .val q => fmt2 q

/-- Embeds applying the `.2f` format to a metadata value, as the
f-string `f"${...:.2f}"` does: formatting a number succeeds, while
formatting a str raises ValueError. -/
def fmt2Meta : MetaVal → Except String String
  | .num q => .ok (fmt2 q)
  | .str _ => .error "ValueError: Unknown format code f for object of type str"

/-- Embeds dividing a metadata value by a float, as
`info.get('marketCap', 0) / 1e9` does: a number divides, a str raises
TypeError. -/
def metaDivF : MetaVal → ℚ → Except String ℚ
  | .num q, d => .ok (q / d)
  | .str _, _ => .error "TypeError: unsupported operand types for div"

/-- Embeds lines 124-138 of src/main.py, building the four metric
display strings in program order:
Current Price from `f"${info.get('currentPrice', 'N/A'):.2f}"`,
Market Cap from `f"${info.get('marketCap', 0) / 1e9:.2f}B"`,
the P/E Ratio from the guarded `isinstance` branch, and
Latest RSI from `f"{latest_rsi:.2f}"`.
An uncaught python exception is `Except.error`. -/
def buildMetrics (info : List (String × MetaVal)) (latestRsi : PVal) :
    Except String (List (String × String)) := do
  let cp ← fmt2Meta (infoGet info "currentPrice" (.str "N/A"))
  let mcq ← metaDivF (infoGet info "marketCap" (.num 0)) 1000000000
  let trailingPe := infoGet info "trailingPE" (.str "N/A")
  let peDisplay :=
    match trailingPe with
    | .num q => fmt2 q
    | .str s => s
  .ok [("Current Price", "$" ++ cp),
       ("Market Cap", "$" ++ fmt2 mcq ++ "B"),
       ("P/E Ratio", peDisplay),
       ("Latest RSI", fmt2P latestRsi)]

/-- Historical price table returned by the provider: one entry per bar,
columns as in the pandas DataFrame of src/main.py. -/
structure DataFrame where
  dates : List String
  opens : List ℚ
  highs : List ℚ
  lows : List ℚ
  closes : List ℚ
  volumes : List ℚ
deriving DecidableEq, Repr

/-- State-passing embedding of `calculate_sma`: the function reads
`data['Close']` and builds a new Series with `rolling(...).mean()`,
both non-mutating pandas operations, so the frame the caller observes
afterwards is returned unchanged alongside the result. -/
def calculate_sma_df (data : DataFrame) (window : ℕ) :
    List (Option ℚ) × DataFrame :=
  (calculate_sma data.closes window, data)

/-- State-passing embedding of `calculate_ema`: `ewm(...).mean()`
returns a new Series and mutates nothing, so the input frame is
returned unchanged alongside the result. -/
def calculate_ema_df (data : DataFrame) (window : ℕ) :
    List ℚ × DataFrame :=
  (calculate_ema data.closes window, data)

/-- State-passing embedding of `calculate_rsi`: `diff`, `where`, unary
minus, `rolling(...).mean()`, elementwise division and subtraction, and
`iloc` all return new objects and mutate nothing, so the input frame is
returned unchanged alongside the result. -/
def calculate_rsi_df (data : DataFrame) (window : ℕ) :
    Except String (List PVal × PVal) × DataFrame :=
  (calculate_rsi data.closes window, data)

/-- Embeds `df_display.to_csv(index=False)` on the displayed table:
header row then one comma-separated row per bar (numeric rendering
abstracted to `toString`; no claim depends on the digit format). -/
def toCsv (data : DataFrame) : String :=
  "Date,Open,High,Low,Close,Volume\n" ++
    String.join
      ((List.range data.dates.length).map fun i =>
        (data.dates.getD i "") ++ "," ++
        toString (data.opens.getD i 0) ++ "," ++
        toString (data.highs.getD i 0) ++ "," ++
        toString (data.lows.getD i 0) ++ "," ++
        toString (data.closes.getD i 0) ++ "," ++
        toString (data.volumes.getD i 0) ++ "\n")

/-- User-visible outputs that the main flow can emit, in order. -/
inductive Event where
  | errorMsg : String → Event
  | metricRow : List (String × String) → Event
  | chart : String → Event
  | tableShown : Event
  | csvButton : String → Event
deriving DecidableEq, Repr

/-- Whether an event is a user-visible error message. -/
def Event.isError : Event → Bool
  | .errorMsg _ => true
  | _ => false

/-- Outcome of the external provider call inside `fetch_stock_data`:
either history and metadata are returned, or the call raises. -/
inductive FetchOutcome where
  | ok : DataFrame → List (String × MetaVal) → FetchOutcome
  | raise : String → FetchOutcome
deriving DecidableEq, Repr

/-- Embeds `fetch_stock_data` of src/main.py: on success it returns the
pair (hist, info); when the provider call raises, it shows one
`st.error` message and returns (None, None).  The external call itself
is the `FetchOutcome` argument. -/
def fetch_stock_data (symbol : String) :
    FetchOutcome → List Event × Option DataFrame × Option (List (String × MetaVal))
  | .ok hist info => ([], some hist, some info)
  | .raise msg =>
      ([.errorMsg ("Error fetching data for " ++ symbol ++ ": " ++ msg)],
       none, none)

/-- Embeds the body of the Fetch Stock Data branch of `main`
(lines 115-165 of src/main.py): fetch once; if both results are
non-None, compute the latest RSI, build the metric row, render the
price chart, render the RSI chart (which recomputes `calculate_rsi`),
show the table and the CSV download button; otherwise show the single
main-level error message.  The returned pair is (events emitted in
order, uncaught python exception if one escaped). -/
def mainOnFetch (symbol : String) (rsiWindow : ℕ) (out : FetchOutcome) :
    List Event × Option String :=
  match fetch_stock_data symbol out with
  | (evs, some hist, some info) =>
      (match calculate_rsi hist.closes rsiWindow with
       | .error e => (evs, some e)
       | .ok rv =>
          (match buildMetrics info rv.2 with
           | .error e => (evs, some e)
           | .ok ms =>
              (match calculate_rsi hist.closes rsiWindow with
               | .error e => (evs ++ [.metricRow ms, .chart "price"], some e)
               | .ok _ =>
                  (evs ++ [.metricRow ms, .chart "price", .chart "rsi",
                           .tableShown, .csvButton (toCsv hist)], none))))
  | (evs, _, _) =>
      (evs ++ [.errorMsg
        "Failed to fetch stock data. Please check the symbol and try again."],
       none)

/-! Helper lemmas about the embedded series operations. -/

theorem length_rollingMean (w : ℕ) (xs : List ℚ) :
    (rollingMean w xs).length = xs.length := by
  simp [rollingMean]

theorem length_diffList (xs : List ℚ) : (diffList xs).length = xs.length := by
  cases xs with
  | nil => rfl
  | cons x rest => simp [diffList, List.length_zipWith]

theorem length_rsiGain (closes : List ℚ) :
    (rsiGain closes).length = closes.length := by
  simp [rsiGain, whereGtZero, rsiDelta, length_diffList]

theorem length_rsiLoss (closes : List ℚ) :
    (rsiLoss closes).length = closes.length := by
  simp [rsiLoss, whereLtZero, rsiDelta, length_diffList]

theorem length_rsiAvgGain (closes : List ℚ) (w : ℕ) :
    (rsiAvgGain closes w).length = closes.length := by
  simp [rsiAvgGain, length_rollingMean, length_rsiGain]

theorem length_rsiAvgLoss (closes : List ℚ) (w : ℕ) :
    (rsiAvgLoss closes w).length = closes.length := by
  simp [rsiAvgLoss, length_rollingMean, length_rsiLoss]

theorem length_rsSeries (closes : List ℚ) (w : ℕ) :
    (rsSeries closes w).length = closes.length := by
  simp [rsSeries, List.length_zipWith, length_rsiAvgGain, length_rsiAvgLoss]

theorem length_rsiSeries (closes : List ℚ) (w : ℕ) :
    (rsiSeries closes w).length = closes.length := by
  simp [rsiSeries, length_rsSeries]

theorem rollingMean_getElem (w : ℕ) (xs : List ℚ) (i : ℕ) (h : i < xs.length) :
    (rollingMean w xs)[i]? =
      some (if 1 ≤ w ∧ w ≤ i + 1 then
              some (((xs.drop (i + 1 - w)).take w).sum / (w : ℚ))
            else none) := by
  simp [rollingMean, List.getElem?_map, List.getElem?_range h]

theorem rollingMean_none (w : ℕ) (xs : List ℚ) (i : ℕ)
    (h : i < xs.length) (hw : i + 1 < w) :
    (rollingMean w xs)[i]? = some none := by
  rw [rollingMean_getElem w xs i h, if_neg (by omega)]

theorem rollingMean_some (w : ℕ) (xs : List ℚ) (i : ℕ)
    (h : i < xs.length) (h1 : 1 ≤ w) (h2 : w ≤ i + 1) :
    (rollingMean w xs)[i]? =
      some (some (((xs.drop (i + 1 - w)).take w).sum / (w : ℚ))) := by
  rw [rollingMean_getElem w xs i h, if_pos ⟨h1, h2⟩]

theorem rollingMean_some_inv {w : ℕ} {xs : List ℚ} {i : ℕ} {q : ℚ}
    (hq : (rollingMean w xs)[i]? = some (some q)) :
    1 ≤ w ∧ w ≤ i + 1 ∧ i < xs.length ∧
      q = ((xs.drop (i + 1 - w)).take w).sum / (w : ℚ) := by
  by_cases h : i < xs.length
  · rw [rollingMean_getElem w xs i h] at hq
    by_cases hc : 1 ≤ w ∧ w ≤ i + 1
    · rw [if_pos hc] at hq
      refine ⟨hc.1, hc.2, h, ?_⟩
      have := Option.some.inj (Option.some.inj hq)
      exact this.symm
    · rw [if_neg hc] at hq
      simp at hq
  · have hnone : (rollingMean w xs)[i]? = none := by
      apply List.getElem?_eq_none
      rw [length_rollingMean]
      omega
    rw [hnone] at hq
    simp at hq

theorem rsiGain_nonneg (closes : List ℚ) : ∀ x ∈ rsiGain closes, 0 ≤ x := by
  intro x hx
  obtain ⟨d, _, hd⟩ := List.mem_map.mp hx
  cases d with
  | none => exact le_of_eq hd
  | some y =>
      have hd' : (if 0 < y then y else 0) = x := hd
      by_cases hy : 0 < y
      · rw [if_pos hy] at hd'
        exact le_of_lt (hd' ▸ hy)
      · rw [if_neg hy] at hd'
        exact le_of_eq hd'

theorem rsiLoss_nonneg (closes : List ℚ) : ∀ x ∈ rsiLoss closes, 0 ≤ x := by
  intro x hx
  obtain ⟨y, hy, hyx⟩ := List.mem_map.mp hx
  obtain ⟨d, _, hd⟩ := List.mem_map.mp hy
  cases d with
  | none =>
      have hd' : (0 : ℚ) = y := hd
      rw [← hyx, ← hd']
      norm_num
  | some z =>
      have hd' : (if z < 0 then z else 0) = y := hd
      by_cases hz : z < 0
      · rw [if_pos hz] at hd'
        rw [← hyx, ← hd']
        linarith
      · rw [if_neg hz] at hd'
        rw [← hyx, ← hd']
        norm_num

theorem rollingMean_entry_nonneg {w : ℕ} {xs : List ℚ} {i : ℕ} {q : ℚ}
    (hnn : ∀ x ∈ xs, 0 ≤ x)
    (hq : (rollingMean w xs)[i]? = some (some q)) : 0 ≤ q := by
  obtain ⟨h1, h2, h3, hq'⟩ := rollingMean_some_inv hq
  rw [hq']
  apply div_nonneg
  · apply List.sum_nonneg
    intro x hx
    exact hnn x (List.mem_of_mem_drop (List.mem_of_mem_take hx))
  · exact Nat.cast_nonneg w

theorem rsSeries_getElem {closes : List ℚ} {w : ℕ} {i : ℕ}
    {og ol : Option ℚ}
    (hg : (rsiAvgGain closes w)[i]? = some og)
    (hl : (rsiAvgLoss closes w)[i]? = some ol) :
    (rsSeries closes w)[i]? = some (pvDivOpt og ol) := by
  simp [rsSeries, List.getElem?_zipWith, hg, hl]

theorem rsiSeries_getElem {closes : List ℚ} {w : ℕ} {i : ℕ} {r : PVal}
    (h : (rsSeries closes w)[i]? = some r) :
    (rsiSeries closes w)[i]? = some (rsiOfRs r) := by
  simp [rsiSeries, List.getElem?_map, h]

theorem rsiOfRs_nan : rsiOfRs .nan = .nan := rfl

theorem rsiOfRs_pinf : rsiOfRs .pinf = .val 100 := by
  norm_num [rsiOfRs, pvSub, pvDiv, pvAdd, pvNeg]

theorem rsiOfRs_val (q : ℚ) (h : (1 : ℚ) + q ≠ 0) :
    rsiOfRs (.val q) = .val (100 - 100 / (1 + q)) := by
  simp only [rsiOfRs, pvAdd, pvDiv, pvSub, pvNeg, if_neg h]
  norm_num [sub_eq_add_neg]

theorem length_emaGo (a p : ℚ) (cs : List ℚ) :
    (emaGo a p cs).length = cs.length := by
  induction cs generalizing p with
  | nil => rfl
  | cons c cs ih => simp [emaGo, ih]

theorem length_calculate_ema (closes : List ℚ) (w : ℕ) :
    (calculate_ema closes w).length = closes.length := by
  cases closes with
  | nil => rfl
  | cons c cs => simp [calculate_ema, length_emaGo]

theorem calculate_ema_zero (closes : List ℚ) (w : ℕ) :
    (calculate_ema closes w)[0]? = closes[0]? := by
  cases closes with
  | nil => rfl
  | cons c cs => simp [calculate_ema]

theorem emaGo_rec (cs : List ℚ) : ∀ (a p : ℚ) (i : ℕ) (e c : ℚ),
    (p :: emaGo a p cs)[i]? = some e → cs[i]? = some c →
    (p :: emaGo a p cs)[i + 1]? = some (a * c + (1 - a) * e) := by
  induction cs with
  | nil =>
      intro a p i e c he hc
      simp at hc
  | cons c0 cs ih =>
      intro a p i e c he hc
      cases i with
      | zero =>
          have he' : p = e := by simpa using he
          have hc' : c0 = c := by simpa using hc
          rw [List.getElem?_cons_succ]
          simp [emaGo, he', hc']
      | succ j =>
          have he' : ((a * c0 + (1 - a) * p) :: emaGo a (a * c0 + (1 - a) * p) cs)[j]? = some e := by
            simpa [emaGo] using he
          have hc' : cs[j]? = some c := by simpa using hc
          have := ih a (a * c0 + (1 - a) * p) j e c he' hc'
          rw [List.getElem?_cons_succ]
          simpa [emaGo] using this

theorem calculate_ema_rec (closes : List ℚ) (w : ℕ) (i : ℕ) (e c : ℚ)
    (he : (calculate_ema closes w)[i]? = some e)
    (hc : closes[i + 1]? = some c) :
    (calculate_ema closes w)[i + 1]? =
      some ((2 / ((w : ℚ) + 1)) * c + (1 - 2 / ((w : ℚ) + 1)) * e) := by
  cases closes with
  | nil => simp at hc
  | cons c0 cs =>
      exact emaGo_rec cs (2 / ((w : ℚ) + 1)) c0 i e c he (by simpa using hc)

theorem emaGo_const (a c : ℚ) (m : ℕ) :
    emaGo a c (List.replicate m c) = List.replicate m c := by
  induction m with
  | zero => rfl
  | succ n ih =>
      have h : a * c + (1 - a) * c = c := by ring
      simp [List.replicate_succ, emaGo, h, ih]

theorem calculate_ema_const (c : ℚ) (n w : ℕ) :
    calculate_ema (List.replicate n c) w = List.replicate n c := by
  cases n with
  | zero => rfl
  | succ m =>
      simp [List.replicate_succ, calculate_ema, emaGo_const]

theorem leadingNones_spec (l : List (Option ℚ)) (k : ℕ)
    (h1 : ∀ i, i < k → l[i]? = some none)
    (h2 : k = l.length ∨ ∃ q, l[k]? = some (some q)) :
    leadingNones l = k := by
  induction l generalizing k with
  | nil =>
      rcases h2 with h | ⟨q, hq⟩
      · simp at h
        simp [h, leadingNones]
      · simp at hq
  | cons a t ih =>
      cases k with
      | zero =>
          rcases h2 with h | ⟨q, hq⟩
          · simp at h
          · have : a = some q := by simpa using hq
            simp [this, leadingNones]
      | succ j =>
          have ha : a = none := by
            have := h1 0 (by omega)
            simpa using this
          subst ha
          have : leadingNones t = j := by
            apply ih
            · intro i hi
              have := h1 (i + 1) (by omega)
              simpa using this
            · rcases h2 with h | ⟨q, hq⟩
              · left
                simpa using h
              · right
                exact ⟨q, by simpa using hq⟩
          simp [leadingNones, this]

theorem leadingNans_ge (l : List PVal) (k : ℕ)
    (h : ∀ i, i < k → l[i]? = some .nan) : k ≤ leadingNans l := by
  induction l generalizing k with
  | nil =>
      cases k with
      | zero => exact le_refl 0
      | succ j =>
          have := h 0 (by omega)
          simp at this
  | cons a t ih =>
      cases k with
      | zero => exact Nat.zero_le _
      | succ j =>
          have ha : a = .nan := by
            have := h 0 (by omega)
            simpa using this
          subst ha
          have := ih j (fun i hi => by
            have := h (i + 1) (by omega)
            simpa using this)
          simp [leadingNans]
          omega

theorem leadingNones_sma (closes : List ℚ) (w : ℕ) (hw : 1 ≤ w) :
    leadingNones (calculate_sma closes w) = min (w - 1) closes.length := by
  apply leadingNones_spec
  · intro i hi
    have h1 : i < closes.length := lt_of_lt_of_le hi (min_le_right _ _)
    have h2 : i < w - 1 := lt_of_lt_of_le hi (min_le_left _ _)
    exact rollingMean_none w closes i h1 (by omega)
  · by_cases h : closes.length ≤ w - 1
    · left
      rw [show calculate_sma closes w = rollingMean w closes from rfl,
          length_rollingMean]
      omega
    · right
      push_neg at h
      have hmin : min (w - 1) closes.length = w - 1 := by omega
      rw [hmin]
      exact ⟨_, rollingMean_some w closes (w - 1) (by omega) hw (by omega)⟩

theorem leadingNans_rsi (closes : List ℚ) (w : ℕ) (hw : 1 ≤ w) :
    min (w - 1) closes.length ≤ leadingNans (rsiSeries closes w) := by
  apply leadingNans_ge
  intro i hi
  have h1 : i < closes.length := lt_of_lt_of_le hi (min_le_right _ _)
  have h2 : i < w - 1 := lt_of_lt_of_le hi (min_le_left _ _)
  have hg : (rsiAvgGain closes w)[i]? = some none := by
    apply rollingMean_none w (rsiGain closes) i _ (by omega)
    rw [length_rsiGain]
    exact h1
  have hl : (rsiAvgLoss closes w)[i]? = some none := by
    apply rollingMean_none w (rsiLoss closes) i _ (by omega)
    rw [length_rsiLoss]
    exact h1
  have hr := rsSeries_getElem hg hl
  have := rsiSeries_getElem hr
  simpa [pvDivOpt, rsiOfRs_nan] using this

theorem calculate_rsi_ok (closes : List ℚ) (w : ℕ) (h : closes ≠ []) :
    ∃ p, calculate_rsi closes w = .ok p := by
  have hne : rsiSeries closes w ≠ [] := by
    intro hh
    apply h
    have := congrArg List.length hh
    rw [length_rsiSeries] at this
    simpa using List.length_eq_zero.mp (by simpa using this)
  obtain ⟨v, hv⟩ := Option.isSome_iff_exists.mp
    (List.getLast?_isSome.mpr hne)
  exact ⟨(rsiSeries closes w, v), by simp [calculate_rsi, hv]⟩

/-! Small computation lemmas used by the edge-series claims. -/

theorem rsiGain_single (c : ℚ) : rsiGain [c] = [0] := rfl

theorem rsiLoss_single (c : ℚ) : rsiLoss [c] = [0] := by
  norm_num [rsiLoss, whereLtZero, rsiDelta, diffList]

theorem rollingMean_single (w : ℕ) (x : ℚ) (hw : 2 ≤ w) :
    rollingMean w [x] = [none] := by
  have h1 : List.range (List.length [x]) = [0] := rfl
  simp only [rollingMean, h1, List.map_cons, List.map_nil]
  rw [if_neg (by omega)]

/-- C1 (amended): on the single-row series the SMA (window ≥ 2) and RSI
series are fully undefined and the latest-RSI lookup returns NaN
without raising, the EMA of a single row is the row itself (defined, by
the no-warm-up rule); on the empty series the latest-RSI lookup of
`calculate_rsi` raises IndexError; on every non-empty series the
indicator computation does not raise. -/
theorem C1_edge_series (w : ℕ) (hw : 1 ≤ w) :
    (∀ c : ℚ, 2 ≤ w → calculate_sma [c] w = [none])
  ∧ (∀ c : ℚ, calculate_rsi [c] w = .ok ([.nan], .nan))
  ∧ calculate_rsi ([] : List ℚ) w =
      .error "IndexError: single positional indexer is out-of-bounds"
  ∧ (∀ closes : List ℚ, closes ≠ [] → ∃ p, calculate_rsi closes w = .ok p)
  ∧ (∀ c : ℚ, calculate_ema [c] w = [c]) := by
  refine ⟨?_, ?_, ?_, ?_, ?_⟩
  · intro c h2
    exact rollingMean_single w c h2
  · intro c
    rcases eq_or_lt_of_le hw with h | h
    · have hs : rsiSeries [c] 1 = [.nan] := by
        norm_num [rsiSeries, rsSeries, rsiAvgGain, rsiAvgLoss, rsiGain,
          rsiLoss, rsiDelta, diffList, whereGtZero, whereLtZero, rollingMean,
          List.range_succ, pvDivOpt, pvDiv, rsiOfRs, pvAdd, pvSub, pvNeg]
      rw [← h]
      simp [calculate_rsi, hs]
    · have hs : rsiSeries [c] w = [.nan] := by
        rw [rsiSeries, rsSeries, rsiAvgGain, rsiAvgLoss, rsiGain_single,
          rsiLoss_single, rollingMean_single w 0 (by omega)]
        rfl
      simp [calculate_rsi, hs]
  · rfl
  · intro closes h
    exact calculate_rsi_ok closes w h
  · intro c
    rfl

/-- C1 counterexample: the claim requires the latest-RSI lookup not to
raise on the empty Price Series and indicator computation never to
raise, but on the empty series `calculate_rsi` raises IndexError from
`rsi.iloc[-1]`. -/
theorem C1_counterexample :
    calculate_rsi ([] : List ℚ) 14 =
      .error "IndexError: single positional indexer is out-of-bounds" := rfl

/-- C1 witness: the amended theorem applied to the single-row series
[5] with the default RSI window 14. -/
theorem C1_witness : calculate_rsi [(5 : ℚ)] 14 = .ok ([.nan], .nan) :=
  (C1_edge_series 14 (by decide)).2.1 5

/-- C2 (amended): delta[0] is undefined, but the where-replacement
coerces it to 0 inside gain and loss, so avgGain[i] and avgLoss[i] are
undefined exactly for i < w−1 and defined from index w−1 on; the RSI
series has at least min(w−1, length) leading undefined entries — the
same warm-up as SMA, not one more. -/
theorem C2_rsi_warmup (closes : List ℚ) (w : ℕ) (hw : 1 ≤ w) :
    (closes ≠ [] → (rsiDelta closes)[0]? = some none)
  ∧ (∀ i, i < closes.length → i + 1 < w →
      (rsiAvgGain closes w)[i]? = some none ∧
      (rsiAvgLoss closes w)[i]? = some none)
  ∧ (∀ i, i < closes.length → w ≤ i + 1 →
      (∃ x, (rsiAvgGain closes w)[i]? = some (some x)) ∧
      (∃ y, (rsiAvgLoss closes w)[i]? = some (some y)))
  ∧ min (w - 1) closes.length ≤ leadingNans (rsiSeries closes w) := by
  refine ⟨?_, ?_, ?_, leadingNans_rsi closes w hw⟩
  · intro h
    cases closes with
    | nil => exact absurd rfl h
    | cons c cs => simp [rsiDelta, diffList]
  · intro i h1 h2
    constructor
    · apply rollingMean_none w (rsiGain closes) i _ (by omega)
      rw [length_rsiGain]
      exact h1
    · apply rollingMean_none w (rsiLoss closes) i _ (by omega)
      rw [length_rsiLoss]
      exact h1
  · intro i h1 h2
    constructor
    · exact ⟨_, rollingMean_some w (rsiGain closes) i
        (by rw [length_rsiGain]; exact h1) hw h2⟩
    · exact ⟨_, rollingMean_some w (rsiLoss closes) i
        (by rw [length_rsiLoss]; exact h1) hw h2⟩

/-- C2 counterexample: for the series [1,2,3] with window 2 the claim
says avgGain is undefined at every index below 2 and the RSI series has
exactly 2 leading undefined entries; in fact avgGain[1] is defined
(value 1/2) and the RSI series has a single leading undefined entry. -/
theorem C2_counterexample :
    (rsiAvgGain [(1 : ℚ), 2, 3] 2)[1]? = some (some (1 / 2)) ∧
    leadingNans (rsiSeries [(1 : ℚ), 2, 3] 2) = 1 := by
  constructor
  · norm_num [rsiAvgGain, rsiGain, rsiDelta, diffList, whereGtZero,
      rollingMean, List.range_succ]
  · norm_num [rsiSeries, rsSeries, rsiAvgGain, rsiAvgLoss, rsiGain, rsiLoss,
      rsiDelta, diffList, whereGtZero, whereLtZero, rollingMean,
      List.range_succ, pvDivOpt, pvDiv, rsiOfRs, pvAdd, pvSub, pvNeg,
      leadingNans]

/-- C2 witness: the amended theorem applied to [1,2,3] with window 2 at
index 0 (one leading undefined avgGain entry). -/
theorem C2_witness : (rsiAvgGain [(1 : ℚ), 2, 3] 2)[0]? = some none :=
  ((C2_rsi_warmup [1, 2, 3] 2 (by decide)).2.1 0 (by decide) (by decide)).1

/-- C5: for every price series and window w ≥ 1, `calculate_sma`
returns a series of the same length whose entry i is the arithmetic
mean of the trailing w closes when i ≥ w−1 and is undefined otherwise;
it is total (no error conditions), and when w exceeds the series length
every entry is undefined. -/
theorem C5_sma_spec (closes : List ℚ) (w : ℕ) (hw : 1 ≤ w) :
    (calculate_sma closes w).length = closes.length
  ∧ (∀ i, i < closes.length → w ≤ i + 1 →
      (calculate_sma closes w)[i]? =
        some (some (((closes.drop (i + 1 - w)).take w).sum / (w : ℚ))))
  ∧ (∀ i, i < closes.length → i + 1 < w →
      (calculate_sma closes w)[i]? = some none)
  ∧ (closes.length < w → ∀ x ∈ calculate_sma closes w, x = none) := by
  refine ⟨length_rollingMean w closes, ?_, ?_, ?_⟩
  · intro i h1 h2
    exact rollingMean_some w closes i h1 hw h2
  · intro i h1 h2
    exact rollingMean_none w closes i h1 h2
  · intro hlen x hx
    obtain ⟨i, hi, hfx⟩ := List.mem_map.mp hx
    have hi' : i < closes.length := List.mem_range.mp hi
    rw [← hfx, if_neg (by omega)]

/-- C5 witness: the theorem applied to [1,2,3] with window 2 at index
1, where the mean of the trailing two closes is 3/2. -/
theorem C5_witness :
    (calculate_sma [(1 : ℚ), 2, 3] 2)[1]? = some (some (3 / 2)) := by
  have h := (C5_sma_spec [1, 2, 3] 2 (by decide)).2.1 1 (by decide) (by decide)
  rw [h]
  norm_num

/-- C6 (amended): for every price series and window w ≥ 1,
`calculate_ema` has the same length as the input with every position
defined (its entries are plain numbers), E[0] = close[0], and
E[i] = α·close[i] + (1−α)·E[i−1] with α = 2/(w+1); `calculate_sma` has
exactly min(w−1, length) leading undefined entries — the claimed
"exactly w−1" holds only when the series has at least w−1 rows. -/
theorem C6_ema_recurrence (closes : List ℚ) (w : ℕ) (hw : 1 ≤ w) :
    (calculate_ema closes w).length = closes.length
  ∧ (calculate_ema closes w)[0]? = closes[0]?
  ∧ (∀ i e c, (calculate_ema closes w)[i]? = some e →
      closes[i + 1]? = some c →
      (calculate_ema closes w)[i + 1]? =
        some ((2 / ((w : ℚ) + 1)) * c + (1 - 2 / ((w : ℚ) + 1)) * e))
  ∧ leadingNones (calculate_sma closes w) = min (w - 1) closes.length := by
  refine ⟨length_calculate_ema closes w, calculate_ema_zero closes w, ?_,
    leadingNones_sma closes w hw⟩
  intro i e c he hc
  exact calculate_ema_rec closes w i e c he hc

/-- C6 counterexample: for the non-empty series [1] and window 3 the
claim requires exactly 3 − 1 = 2 leading undefined SMA entries, but the
SMA series is [NaN] with a single leading undefined entry. -/
theorem C6_counterexample :
    leadingNones (calculate_sma [(1 : ℚ)] 3) ≠ 3 - 1 := by
  rw [calculate_sma, rollingMean_single 3 1 (by omega)]
  norm_num [leadingNones]

/-- C6 witness: the amended theorem applied to [10, 11] with window 2,
giving E[1] = (2/3)·11 + (1/3)·10 = 32/3. -/
theorem C6_witness : (calculate_ema [(10 : ℚ), 11] 2)[1]? = some (32 / 3) := by
  have h := C6_ema_recurrence [(10 : ℚ), 11] 2 (by decide)
  have h2 := h.2.2.1 0 10 11 (by rw [h.2.1]; simp) (by simp)
  rw [h2]
  norm_num

/-- C8: on every constant-price series of length at least the window,
SMA equals the constant at every defined position and EMA equals the
constant at every position. -/
theorem C8_const_series (c : ℚ) (n w : ℕ) (hw : 1 ≤ w) (_hn : w ≤ n) :
    (∀ (i : ℕ) (q : ℚ),
      (calculate_sma (List.replicate n c) w)[i]? = some (some q) → q = c)
  ∧ calculate_ema (List.replicate n c) w = List.replicate n c := by
  constructor
  · intro i q hq
    obtain ⟨h1, h2, h3, hq'⟩ := rollingMean_some_inv hq
    rw [List.length_replicate] at h3
    rw [hq', List.drop_replicate, List.take_replicate]
    have hmin : min w (n - (i + 1 - w)) = w := by omega
    rw [hmin, List.sum_replicate, nsmul_eq_mul]
    have hne : (w : ℚ) ≠ 0 := Nat.cast_ne_zero.mpr (by omega)
    field_simp
  · exact calculate_ema_const c n w

/-- C8 witness: the theorem applied to the constant series of three 7s
with window 2. -/
theorem C8_witness :
    calculate_ema (List.replicate 3 (7 : ℚ)) 2 = List.replicate 3 (7 : ℚ) :=
  (C8_const_series 7 3 2 (by decide) (by decide)).2

/-- C7: at every index where avgGain and avgLoss are both defined, the
RSI value lies in [0,100] whenever avgLoss is positive, equals 100
exactly when avgLoss = 0 and avgGain > 0, and is NaN (undefined, not an
error) when both averages are 0. -/
theorem C7_rsi_range (closes : List ℚ) (w : ℕ) (i : ℕ) (a l : ℚ)
    (hg : (rsiAvgGain closes w)[i]? = some (some a))
    (hl : (rsiAvgLoss closes w)[i]? = some (some l)) :
    (0 < l → ∃ x, (rsiSeries closes w)[i]? = some (.val x) ∧
      0 ≤ x ∧ x ≤ 100)
  ∧ ((rsiSeries closes w)[i]? = some (.val 100) ↔ (l = 0 ∧ 0 < a))
  ∧ (a = 0 ∧ l = 0 → (rsiSeries closes w)[i]? = some .nan) := by
  have ha : 0 ≤ a := rollingMean_entry_nonneg (rsiGain_nonneg closes) hg
  have hlnn : 0 ≤ l := rollingMean_entry_nonneg (rsiLoss_nonneg closes) hl
  have hrsi : (rsiSeries closes w)[i]? =
      some (rsiOfRs (pvDiv (.val a) (.val l))) :=
    rsiSeries_getElem (rsSeries_getElem hg hl)
  by_cases hl0 : l = 0
  · subst hl0
    by_cases ha0 : a = 0
    · subst ha0
      have hv : rsiOfRs (pvDiv (.val (0 : ℚ)) (.val 0)) = .nan := by
        norm_num [pvDiv, rsiOfRs_nan]
      rw [hv] at hrsi
      refine ⟨fun h0 => absurd h0 (lt_irrefl 0), ?_, fun _ => hrsi⟩
      rw [hrsi]
      simp
    · have hapos : 0 < a := lt_of_le_of_ne ha (Ne.symm ha0)
      have hv : rsiOfRs (pvDiv (.val a) (.val 0)) = .val 100 := by
        rw [show pvDiv (.val a) (.val (0 : ℚ)) = .pinf from by
          simp [pvDiv, ha0, hapos]]
        exact rsiOfRs_pinf
      rw [hv] at hrsi
      refine ⟨fun h0 => absurd h0 (lt_irrefl 0), ?_,
        fun hz => absurd hz.1 ha0⟩
      rw [hrsi]
      simp [hapos]
  · have hlpos : 0 < l := lt_of_le_of_ne hlnn (Ne.symm hl0)
    have hq : 0 ≤ a / l := div_nonneg ha hlnn
    have h1q : (0 : ℚ) < 1 + a / l := by linarith
    have hv : rsiOfRs (pvDiv (.val a) (.val l)) =
        .val (100 - 100 / (1 + a / l)) := by
      rw [show pvDiv (.val a) (.val l) = .val (a / l) from by
        simp [pvDiv, hl0]]
      exact rsiOfRs_val (a / l) h1q.ne'
    rw [hv] at hrsi
    have hfrac_pos : 0 < 100 / (1 + a / l) := div_pos (by norm_num) h1q
    have hfrac_le : 100 / (1 + a / l) ≤ 100 := by
      rw [div_le_iff₀ h1q]
      nlinarith
    refine ⟨?_, ?_, fun hz => absurd hz.2 hl0⟩
    · intro h
      exact ⟨100 - 100 / (1 + a / l), hrsi, by linarith, by linarith⟩
    · rw [hrsi]
      constructor
      · intro h
        exfalso
        have h100 : (100 : ℚ) - 100 / (1 + a / l) = 100 :=
          PVal.val.inj (Option.some.inj h)
        linarith
      · intro h
        exact absurd h.1 hl0

/-- C7 witness: the theorem applied to [1, 2, 1] with window 2 at index
2, where avgGain = avgLoss = 1/2 > 0, giving an RSI value in [0,100]. -/
theorem C7_witness :
    ∃ x, (rsiSeries [(1 : ℚ), 2, 1] 2)[2]? = some (.val x) ∧
      0 ≤ x ∧ x ≤ 100 :=
  (C7_rsi_range [(1 : ℚ), 2, 1] 2 2 (1 / 2) (1 / 2)
    (by norm_num [rsiAvgGain, rsiGain, rsiDelta, diffList, whereGtZero,
      rollingMean, List.range_succ])
    (by norm_num [rsiAvgLoss, rsiLoss, rsiDelta, diffList, whereLtZero,
      rollingMean, List.range_succ])).1 (by norm_num)

/-- C9 (amended): the undefined first delta is coerced to 0 by the
where-replacement, so gain[0] = loss[0] = 0 and avgGain, avgLoss are
defined from index w−1 onward (the SMA warm-up); at such an index the
RSI value is NaN exactly when both averages are 0 (all deltas in the
window zero), and defined otherwise. -/
theorem C9_gain_coerced (closes : List ℚ) (w : ℕ) (hw : 1 ≤ w) :
    (closes ≠ [] →
      (rsiGain closes)[0]? = some 0 ∧ (rsiLoss closes)[0]? = some 0)
  ∧ (∀ i, i < closes.length → w ≤ i + 1 →
      ∃ x y, (rsiAvgGain closes w)[i]? = some (some x) ∧
        (rsiAvgLoss closes w)[i]? = some (some y) ∧
        ((rsiSeries closes w)[i]? = some .nan ↔ (x = 0 ∧ y = 0))) := by
  constructor
  · intro h
    cases closes with
    | nil => exact absurd rfl h
    | cons c cs =>
        constructor
        · simp [rsiGain, whereGtZero, rsiDelta, diffList]
        · norm_num [rsiLoss, whereLtZero, rsiDelta, diffList]
  · intro i h1 h2
    obtain ⟨x, hx⟩ : ∃ x, (rsiAvgGain closes w)[i]? = some (some x) :=
      ⟨_, rollingMean_some w (rsiGain closes) i
        (by rw [length_rsiGain]; exact h1) hw h2⟩
    obtain ⟨y, hy⟩ : ∃ y, (rsiAvgLoss closes w)[i]? = some (some y) :=
      ⟨_, rollingMean_some w (rsiLoss closes) i
        (by rw [length_rsiLoss]; exact h1) hw h2⟩
    refine ⟨x, y, hx, hy, ?_⟩
    have hxnn : 0 ≤ x := rollingMean_entry_nonneg (rsiGain_nonneg closes) hx
    have hynn : 0 ≤ y := rollingMean_entry_nonneg (rsiLoss_nonneg closes) hy
    have hrsi : (rsiSeries closes w)[i]? =
        some (rsiOfRs (pvDiv (.val x) (.val y))) :=
      rsiSeries_getElem (rsSeries_getElem hx hy)
    rw [hrsi]
    by_cases hy0 : y = 0
    · subst hy0
      by_cases hx0 : x = 0
      · subst hx0
        norm_num [pvDiv, rsiOfRs_nan]
      · have hxpos : 0 < x := lt_of_le_of_ne hxnn (Ne.symm hx0)
        rw [show pvDiv (.val x) (.val (0 : ℚ)) = .pinf from by
          simp [pvDiv, hx0, hxpos]]
        rw [rsiOfRs_pinf]
        simp [hx0]
    · have hypos : 0 < y := lt_of_le_of_ne hynn (Ne.symm hy0)
      have h1q : (0 : ℚ) < 1 + x / y := by
        have := div_nonneg hxnn hynn
        linarith
      rw [show pvDiv (.val x) (.val y) = .val (x / y) from by
        simp [pvDiv, hy0]]
      rw [rsiOfRs_val _ h1q.ne']
      simp [hy0]

/-- C9 counterexample: the claim says RSI is defined from index w−1
onward for every series of length ≥ w; for the constant series [1,1,1]
with window 2 the entry at index 1 = w−1 is NaN (avgGain = avgLoss = 0),
so RSI is not defined there. -/
theorem C9_counterexample :
    (rsiSeries [(1 : ℚ), 1, 1] 2)[1]? = some PVal.nan := by
  norm_num [rsiSeries, rsSeries, rsiAvgGain, rsiAvgLoss, rsiGain, rsiLoss,
    rsiDelta, diffList, whereGtZero, whereLtZero, rollingMean,
    List.range_succ, pvDivOpt, pvDiv, rsiOfRs, pvAdd, pvSub, pvNeg]

/-- C9 witness: the amended theorem applied to [1,2,3] with window 2 at
index 1 = w−1, where the averages are defined. -/
theorem C9_witness :
    ∃ x y, (rsiAvgGain [(1 : ℚ), 2, 3] 2)[1]? = some (some x) ∧
      (rsiAvgLoss [(1 : ℚ), 2, 3] 2)[1]? = some (some y) ∧
      ((rsiSeries [(1 : ℚ), 2, 3] 2)[1]? = some .nan ↔ (x = 0 ∧ y = 0)) :=
  (C9_gain_coerced [(1 : ℚ), 2, 3] 2 (by decide)).2 1 (by decide) (by decide)

/-- C3 (amended): only the trailing P/E field is guarded — a numeric
value is formatted and any other value falls back to its string form as
a placeholder; an absent market cap defaults to 0.  But an absent or
non-numeric current price raises ValueError from the `.2f` format, and
a non-numeric market cap raises TypeError from the division, so the
display path does fail on those inputs. -/
theorem C3_metadata (info : List (String × MetaVal)) (r : PVal) :
    (∀ s, infoGet info "currentPrice" (.str "N/A") = .str s →
      buildMetrics info r =
        .error "ValueError: Unknown format code f for object of type str")
  ∧ (∀ q s, infoGet info "currentPrice" (.str "N/A") = .num q →
      infoGet info "marketCap" (.num 0) = .str s →
      buildMetrics info r =
        .error "TypeError: unsupported operand types for div")
  ∧ (∀ q mq, infoGet info "currentPrice" (.str "N/A") = .num q →
      infoGet info "marketCap" (.num 0) = .num mq →
      buildMetrics info r =
        .ok [("Current Price", "$" ++ fmt2 q),
             ("Market Cap", "$" ++ fmt2 (mq / 1000000000) ++ "B"),
             ("P/E Ratio",
               match infoGet info "trailingPE" (.str "N/A") with
               | .num p => fmt2 p
               | .str s => s),
             ("Latest RSI", fmt2P r)]) := by
  refine ⟨?_, ?_, ?_⟩
  · intro s h1
    simp only [buildMetrics, h1, fmt2Meta]
    rfl
  · intro q s h1 h2
    simp only [buildMetrics, h1, h2, fmt2Meta, metaDivF]
    rfl
  · intro q mq h1 h2
    simp only [buildMetrics, h1, h2, fmt2Meta, metaDivF]
    rfl

/-- C3 counterexample: with the current-price field absent from the
metadata the claim requires a placeholder and no failure, but the
display path raises ValueError while formatting the placeholder string
with `.2f`. -/
theorem C3_counterexample :
    buildMetrics [] (.val 50) =
      .error "ValueError: Unknown format code f for object of type str" := rfl

/-- C3 witness: the amended theorem applied to a metadata mapping with
a numeric current price, no market cap (defaults to 0), and no P/E
(placeholder string). -/
theorem C3_witness :
    buildMetrics [("currentPrice", .num 5)] (.val 50) =
      .ok [("Current Price", "$" ++ fmt2 5),
           ("Market Cap", "$" ++ fmt2 ((0 : ℚ) / 1000000000) ++ "B"),
           ("P/E Ratio", "N/A"),
           ("Latest RSI", fmt2P (.val 50))] := by
  have h := (C3_metadata [("currentPrice", .num 5)] (.val 50)).2.2 5 0
    (by simp [infoGet]) (by simp [infoGet])
  rw [h]
  simp [infoGet]

/-- C4 (amended): when the provider call raises, the request produces
exactly two user-visible error messages — one from `fetch_stock_data`
naming the symbol and one from the main branch — with no retry of the
fetch, and every downstream output (metric row, charts, table, CSV
download) is skipped, with no uncaught exception. -/
theorem C4_fetch_failure (symbol msg : String) (w : ℕ) :
    mainOnFetch symbol w (.raise msg) =
      ([.errorMsg ("Error fetching data for " ++ symbol ++ ": " ++ msg),
        .errorMsg
          "Failed to fetch stock data. Please check the symbol and try again."],
       none) := rfl

/-- C4 counterexample: a failing fetch surfaces two user-visible error
messages, not exactly one as the claim states. -/
theorem C4_counterexample :
    ((mainOnFetch "AAPL" 14 (.raise "network error")).1.filter
      Event.isError).length ≠ 1 := by
  simp [mainOnFetch, fetch_stock_data, Event.isError]

/-- C10: the indicator functions do not mutate their input: every
pandas operation they perform (`diff`, `where`, unary minus,
`rolling(...).mean()`, `ewm(...).mean()`, elementwise arithmetic,
`iloc`) returns a new object, so in the state-passing embedding the
frame observed after each call is the frame passed in, all columns
included. -/
theorem C10_input_preserved (data : DataFrame) (w : ℕ) :
    (calculate_sma_df data w).2 = data ∧
    (calculate_ema_df data w).2 = data ∧
    (calculate_rsi_df data w).2 = data :=
  ⟨rfl, rfl, rfl⟩
